import Mathlib

/-!
Verification development for the point-of-sale classes `Drink`, `Food` and
`Order` of `src/unittest.py`.

Numbers.  The Python source stores every monetary amount as a Python `float`,
i.e. an IEEE-754 binary64 value, and combines them with float addition
(`+` and the built-in `sum`, which left-folds `+` starting from the integer 0;
`int + float` promotes exactly).  Every float value reachable in this program
is an integer multiple of 2 ^ (-60) (price literals are between 0.3 and 8, or
exactly 0, so their binary64 values have exponent at least -54).  We therefore
embed a float as an `Int` holding the value scaled by 2 ^ 60:

* `dblOfDec n d` is the binary64 value denoted by the decimal literal `n / d`
  (round to nearest, ties to even), exact for `n / d` in `[2 ^ (-8), 2 ^ 52)`
  or `n = 0`, which covers every literal of the source;
* `roundF` rounds an exact (scaled) sum back to 53 significant bits, ties to
  even, exact for magnitudes below 2 ^ 52 — IEEE binary64 addition of two
  in-range values is `pyAdd x y = roundF (x + y)` because the scaled integer
  sum is the exact real sum;
* `toQ` injects a scaled value into `ℚ`, used only to state results.

Errors.  The source raises `ValueError` for an invalid base, flavor, food item
or topping (spec error kind InvalidArgument), `ValueError` with the message
"... has already been added." for a repeated flavor (spec kind DuplicateEntry)
and `IndexError` for a bad removal index (spec kind OutOfRange).  The three
raise sites are embedded as the constructors of `Err`, and each fallible
method returns `Except Err` the updated object; Python exceptions abort the
statement, so on `.error` the receiver keeps its previous state.
-/

deriving instance DecidableEq for Except

/-- Fuel-driven search for the binade of `a / d`: returns `k` with
`d * 2 ^ k ≤ a < d * 2 ^ (k + 1)` whenever such `k` is within `fuel` steps of
the start value. -/
def findExp : Nat → Nat → Nat → Nat → Nat
  | 0, k, _, _ => k
  | fuel + 1, k, a, d =>
    if a < d * 2 ^ k then findExp fuel (k - 1) a d
    else if d * 2 ^ (k + 1) ≤ a then findExp fuel (k + 1) a d
    else k

/-- `num / d` rounded to the nearest integer, ties to even. -/
def rdivNE (num d : Nat) : Nat :=
  let q := num / d
  let r := num % d
  if 2 * r < d then q
  else if d < 2 * r then q + 1
  else if q % 2 = 0 then q else q + 1

/-- The IEEE-754 binary64 value of the decimal literal `n / d`, scaled by
`2 ^ 60`.  The binade search gives `k` with `n / d` in
`[2 ^ (k - 60), 2 ^ (k - 59))`; the 53-bit significand is `n / d` scaled to
`2 ^ 52 ≤ m < 2 ^ 53` and rounded half to even. -/
def dblOfDec (n d : Nat) : Int :=
  if n = 0 then 0
  else
    let a := n * 2 ^ 60
    let k := findExp 140 60 a d
    let m := rdivNE (n * 2 ^ (112 - k)) d
    ((m * 2 ^ (k - 52) : Nat) : Int)

/-- Round a scaled-by-`2 ^ 60` value to the nearest IEEE-754 binary64 value
(53 significant bits, ties to even).  A value with binade below `2 ^ (-8)`
has at most 52 significant bits at this scale and is already exact. -/
def roundF (v : Int) : Int :=
  if v = 0 then 0
  else
    let a := v.natAbs
    let k := findExp 140 60 a 1
    if k < 52 then v
    else
      let g := 2 ^ (k - 52)
      let m := rdivNE a g * g
      if v < 0 then -(m : Int) else (m : Int)

/-- Python float addition on scaled binary64 values: the scaled integer sum is
the exact real sum, rounded to binary64. -/
def pyAdd (x y : Int) : Int := roundF (x + y)

/-- Python's built-in `sum` on a list of floats: a left fold of float
addition starting from integer `0` (`0 + v` is exact). -/
def pySum (l : List Int) : Int := l.foldl pyAdd 0

/-- The rational value of a scaled binary64 value; used in statements only. -/
def toQ (v : Int) : ℚ := (v : ℚ) / 2 ^ 60

/-- The three error kinds of the source, one per raise site: `ValueError`
"Invalid ...", `ValueError` "... has already been added." and `IndexError`
"Invalid index.". -/
inductive Err where
  | invalidArgument
  | duplicateEntry
  | outOfRange
deriving DecidableEq

/-- Key lookup in a Python dict embedded as an association list (Python dicts
preserve insertion order and have unique keys). -/
def alookup (k : String) : List (String × Int) → Option Int
  | [] => none
  | (k', v) :: rest => if k' = k then some v else alookup k rest

/-- Python dict assignment `m[k] = v`: overwrite in place if the key is
present, append otherwise. -/
def astore (k : String) (v : Int) : List (String × Int) → List (String × Int)
  | [] => [(k, v)]
  | (k', v') :: rest => if k' = k then (k, v) :: rest else (k', v') :: astore k v rest

/-- A drink with a single base and multiple flavors.  The Python `set` of
flavors is embedded as a duplicate-free list (`add_flavor` rejects repeats
before inserting). -/
structure Drink where
  _base : Option String
  _flavors : List String
deriving DecidableEq

def Drink._valid_bases : List String :=
  ["water", "sbrite", "pokeacola", "Mr. Salt", "hill fog", "leaf wine"]

def Drink._valid_flavors : List String :=
  ["lemon", "cherry", "strawberry", "mint", "blueberry", "lime"]

/-- `Drink.__init__`: no base and no flavors. -/
def Drink.init : Drink := ⟨none, []⟩

def Drink.add_base (d : Drink) (base : String) : Except Err Drink :=
  if base ∉ Drink._valid_bases then .error .invalidArgument
  else .ok { d with _base := some base }

def Drink.get_base (d : Drink) : Option String := d._base

def Drink.add_flavor (d : Drink) (flavor : String) : Except Err Drink :=
  if flavor ∉ Drink._valid_flavors then .error .invalidArgument
  else if flavor ∈ d._flavors then .error .duplicateEntry
  else .ok { d with _flavors := d._flavors ++ [flavor] }

def Drink.get_flavors (d : Drink) : List String := d._flavors

/-- A food item with optional toppings. -/
structure Food where
  _food_item : String
  _base_price : Int
  _toppings : List (String × Int)
deriving DecidableEq

def Food._valid_food_items : List (String × Int) :=
  [("Hotdog", dblOfDec 230 100),
   ("Corndog", dblOfDec 200 100),
   ("Ice Cream", dblOfDec 300 100),
   ("Onion Rings", dblOfDec 175 100),
   ("French Fries", dblOfDec 150 100),
   ("Tater Tots", dblOfDec 170 100),
   ("Nacho Chips", dblOfDec 190 100)]

def Food._valid_toppings : List (String × Int) :=
  [("Cherry", dblOfDec 0 100),
   ("Whipped Cream", dblOfDec 0 100),
   ("Caramel Sauce", dblOfDec 50 100),
   ("Chocolate Sauce", dblOfDec 50 100),
   ("Nacho Cheese", dblOfDec 30 100),
   ("Chili", dblOfDec 60 100),
   ("Bacon Bits", dblOfDec 30 100),
   ("Ketchup", dblOfDec 0 100),
   ("Mustard", dblOfDec 0 100)]

/-- `Food.__init__`: requires a valid food item, fixes the base price from the
table, starts with no toppings. -/
def Food.init (food_item : String) : Except Err Food :=
  match alookup food_item Food._valid_food_items with
  | none => .error .invalidArgument
  | some p => .ok ⟨food_item, p, []⟩

def Food.add_topping (f : Food) (topping : String) : Except Err Food :=
  match alookup topping Food._valid_toppings with
  | none => .error .invalidArgument
  | some p => .ok { f with _toppings := astore topping p f._toppings }

def Food.get_toppings (f : Food) : List String := f._toppings.map Prod.fst

def Food.get_price (f : Food) : Int :=
  pyAdd f._base_price (pySum (f._toppings.map Prod.snd))

/-- An element of an `Order`: `Order.add_item` appends its argument with no
validation at all, so besides `Drink` and `Food` instances an order may hold
any other object; `other` stands for any value that is neither (the `tag`
only distinguishes such objects). -/
inductive Item where
  | drink (d : Drink)
  | food (f : Food)
  | other (tag : Nat)
deriving DecidableEq

/-- A collection of food and drink items. -/
structure Order where
  _items : List Item
deriving DecidableEq

/-- `Order.__init__`: an empty order. -/
def Order.init : Order := ⟨[]⟩

def Order.add_item (o : Order) (item : Item) : Order := ⟨o._items ++ [item]⟩

def Order.remove_item (o : Order) (index : Int) : Except Err Order :=
  if index < 0 ∨ (o._items.length : Int) ≤ index then .error .outOfRange
  else .ok ⟨o._items.eraseIdx index.toNat⟩

def Order.get_num_items (o : Order) : Nat := o._items.length

/-- `Order.get_total`: starts from `0.0` and float-accumulates a flat `5.00`
per `Drink`, `get_price()` per `Food`, and nothing for any other item. -/
def Order.get_total (o : Order) : Int :=
  o._items.foldl
    (fun total item =>
      match item with
      | .drink _ => pyAdd total (dblOfDec 500 100)
      | .food f => pyAdd total f.get_price
      | .other _ => total)
    0

/-- The test scenario `Food("Hotdog")`. -/
def hotdogPlain : Except Err Food := Food.init "Hotdog"

/-- The test scenario `Food("Hotdog")` + `add_topping("Chili")`. -/
def hotdogChili : Except Err Food :=
  hotdogPlain.bind (fun f => f.add_topping "Chili")

/-- `Food("Hotdog")` + `add_topping("Nacho Cheese")` + `add_topping("Chili")`:
a reachable state whose float price drifts visibly from the decimal sum. -/
def hotdogNachoChili : Except Err Food :=
  (hotdogPlain.bind (fun f => f.add_topping "Nacho Cheese")).bind
    (fun f => f.add_topping "Chili")

/-- The test scenario drink: `Drink()` + `add_base("water")`. -/
def waterDrink : Except Err Drink := Drink.init.add_base "water"

/-- The test scenario order: one water drink and one hotdog with chili. -/
def demoOrder : Except Err Order :=
  waterDrink.bind (fun d =>
    hotdogChili.map (fun f =>
      (Order.init.add_item (.drink d)).add_item (.food f)))

/-- An order holding one water drink and one hotdog with nacho cheese and
chili; its float total drifts visibly from the exact sum of its item prices. -/
def bigOrder : Except Err Order :=
  waterDrink.bind (fun d =>
    hotdogNachoChili.map (fun f =>
      (Order.init.add_item (.drink d)).add_item (.food f)))

/-- Data-model invariant of a `Drink`: the base is unset or in the fixed base
set, the flavors are duplicate-free and all in the fixed flavor set. -/
def Drink.inv (d : Drink) : Prop :=
  (∀ b, d._base = some b → b ∈ Drink._valid_bases)
  ∧ d._flavors.Nodup
  ∧ ∀ fl ∈ d._flavors, fl ∈ Drink._valid_flavors

/-- Data-model invariant of a `Food`: the item is a recognized menu entry and
every topping key is a recognized topping. -/
def Food.inv (f : Food) : Prop :=
  f._food_item ∈ Food._valid_food_items.map Prod.fst
  ∧ ∀ t ∈ f._toppings.map Prod.fst, t ∈ Food._valid_toppings.map Prod.fst

theorem alookup_eq_none_iff (k : String) :
    ∀ l : List (String × Int), alookup k l = none ↔ k ∉ l.map Prod.fst := by
  intro l
  induction l with
  | nil => simp [alookup]
  | cons hd tl ih =>
    obtain ⟨k', v⟩ := hd
    rw [List.map_cons, List.mem_cons]
    by_cases h : k' = k
    · subst h
      simp [alookup]
    · have hne : ¬k = k' := fun e => h e.symm
      simp only [alookup, if_neg h, ih]
      constructor
      · intro hn hc
        rcases hc with hc | hc
        · exact hne hc
        · exact hn hc
      · intro hn hc
        exact hn (Or.inr hc)

theorem mem_keys_of_alookup_eq_some {k : String} {p : Int} :
    ∀ {l : List (String × Int)}, alookup k l = some p → k ∈ l.map Prod.fst := by
  intro l h
  by_contra hmem
  rw [← alookup_eq_none_iff] at hmem
  rw [h] at hmem
  exact Option.noConfusion hmem

theorem astore_eq_self_of_alookup {k : String} {v : Int} :
    ∀ {l : List (String × Int)}, alookup k l = some v → astore k v l = l := by
  intro l
  induction l with
  | nil => intro h; simp [alookup] at h
  | cons hd tl ih =>
    obtain ⟨k', v'⟩ := hd
    intro h
    by_cases hk : k' = k
    · subst hk
      simp [alookup] at h
      simp [astore, h]
    · simp [alookup, hk] at h
      simp [astore, hk, ih h]

theorem alookup_astore (k : String) (v : Int) :
    ∀ l : List (String × Int), alookup k (astore k v l) = some v := by
  intro l
  induction l with
  | nil => simp [astore, alookup]
  | cons hd tl ih =>
    obtain ⟨k', v'⟩ := hd
    by_cases hk : k' = k
    · subst hk
      simp [astore, alookup]
    · simp [astore, alookup, hk, ih]

theorem mem_keys_astore {x k : String} {v : Int} :
    ∀ {l : List (String × Int)},
      x ∈ (astore k v l).map Prod.fst → x = k ∨ x ∈ l.map Prod.fst := by
  intro l
  induction l with
  | nil =>
    intro h
    rw [show astore k v [] = [(k, v)] from rfl, List.map_cons, List.mem_cons] at h
    rcases h with h | h
    · exact Or.inl h
    · exact absurd h (List.not_mem_nil x)
  | cons hd tl ih =>
    obtain ⟨k', v'⟩ := hd
    intro h
    by_cases hk : k' = k
    · rw [show astore k v ((k', v') :: tl) = (k, v) :: tl from by simp [astore, hk],
        List.map_cons, List.mem_cons] at h
      rw [List.map_cons, List.mem_cons]
      rcases h with h | h
      · exact Or.inl h
      · exact Or.inr (Or.inr h)
    · rw [show astore k v ((k', v') :: tl) = (k', v') :: astore k v tl from by
        simp [astore, hk], List.map_cons, List.mem_cons] at h
      rw [List.map_cons, List.mem_cons]
      rcases h with h | h
      · exact Or.inr (Or.inl h)
      · rcases ih h with h' | h'
        · exact Or.inl h'
        · exact Or.inr (Or.inr h')

theorem eraseIdx_get?_of_lt {α : Type} :
    ∀ (l : List α) (i j : Nat), j < i → (l.eraseIdx i).get? j = l.get? j := by
  intro l
  induction l with
  | nil => intro i j _; rfl
  | cons a tl ih =>
    intro i j hij
    match i, j with
    | i + 1, 0 => rfl
    | i + 1, j + 1 =>
      have : j < i := Nat.lt_of_succ_lt_succ hij
      simpa [List.eraseIdx] using ih i j this

theorem eraseIdx_get?_of_ge {α : Type} :
    ∀ (l : List α) (i j : Nat), i ≤ j → (l.eraseIdx i).get? j = l.get? (j + 1) := by
  intro l
  induction l with
  | nil => intro i j _; rfl
  | cons a tl ih =>
    intro i j hij
    match i, j with
    | 0, j => rfl
    | i + 1, j + 1 =>
      have : i ≤ j := Nat.le_of_succ_le_succ hij
      simpa [List.eraseIdx] using ih i j this

theorem length_eraseIdx_add_one {α : Type} :
    ∀ (l : List α) (i : Nat), i < l.length → (l.eraseIdx i).length + 1 = l.length := by
  intro l
  induction l with
  | nil => intro i h; simp at h
  | cons a tl ih =>
    intro i h
    match i with
    | 0 => rfl
    | i + 1 =>
      have : i < tl.length := Nat.lt_of_succ_lt_succ h
      simpa [List.eraseIdx] using ih i this

/-- C3: for every Drink and flavor argument f, add_flavor fails with
InvalidArgument when f is not in the fixed flavor set; fails with
DuplicateEntry when f is valid but already present; and otherwise succeeds,
after which get_flavors() contains f. -/
theorem C3_add_flavor_trichotomy (d : Drink) (f : String) :
    (f ∉ Drink._valid_flavors → d.add_flavor f = .error .invalidArgument)
    ∧ (f ∈ Drink._valid_flavors → f ∈ d._flavors →
        d.add_flavor f = .error .duplicateEntry)
    ∧ (f ∈ Drink._valid_flavors → f ∉ d._flavors →
        d.add_flavor f = .ok ⟨d._base, d._flavors ++ [f]⟩
        ∧ f ∈ (Drink.mk d._base (d._flavors ++ [f])).get_flavors) := by
  refine ⟨fun h => ?_, fun h1 h2 => ?_, fun h1 h2 => ⟨?_, ?_⟩⟩
  · simp [Drink.add_flavor, h]
  · simp [Drink.add_flavor, h1, h2]
  · simp [Drink.add_flavor, h1, h2]
  · simp [Drink.get_flavors]

/-- C3 witness: adding "lemon" to a fresh drink succeeds and stores it. -/
theorem C3_add_flavor_trichotomy_witness :
    Drink.init.add_flavor "lemon" = .ok ⟨none, ["lemon"]⟩
    ∧ "lemon" ∈ (Drink.mk none ["lemon"]).get_flavors := by
  have h := (C3_add_flavor_trichotomy Drink.init "lemon").2.2 (by decide) (by decide)
  exact h

/-- C6: add_base with a base outside the fixed base set fails with
InvalidArgument; a failing call returns no updated drink, so the caller's
previously stored base (set or unset) and flavors are unchanged. -/
theorem C6_add_base_invalid (d : Drink) (b : String) (h : b ∉ Drink._valid_bases) :
    d.add_base b = .error .invalidArgument := by
  simp [Drink.add_base, h]

/-- C6 witness: an invalid base is rejected on a drink with a stored base. -/
theorem C6_add_base_invalid_witness :
    (Drink.mk (some "water") ["lemon"]).add_base "kool aid" = .error .invalidArgument :=
  C6_add_base_invalid (Drink.mk (some "water") ["lemon"]) "kool aid" (by decide)

/-- C7: add_base with a valid base always succeeds — also when a base was
already set (last write wins, no error) — and get_base then returns that
base; a freshly constructed drink's get_base is the unset sentinel (None). -/
theorem C7_add_base_valid (d : Drink) (b : String) :
    (b ∈ Drink._valid_bases →
      d.add_base b = .ok ⟨some b, d._flavors⟩
      ∧ (Drink.mk (some b) d._flavors).get_base = some b)
    ∧ Drink.init.get_base = none := by
  refine ⟨fun h => ⟨?_, rfl⟩, rfl⟩
  simp [Drink.add_base, h]

/-- C7 witness: re-setting the base of a water drink to "sbrite" succeeds. -/
theorem C7_add_base_valid_witness :
    (Drink.mk (some "water") []).add_base "sbrite" = .ok ⟨some "sbrite", []⟩ :=
  ((C7_add_base_valid (Drink.mk (some "water") []) "sbrite").1 (by decide)).1

/-- C10: add_item appends without validation; an item that is neither a Drink
nor a Food is counted by get_num_items but contributes nothing to get_total,
so adding it increments the count and leaves the total unchanged. -/
theorem C10_other_item_counted_priced_zero (o : Order) (tag : Nat) :
    (o.add_item (Item.other tag)).get_num_items = o.get_num_items + 1
    ∧ (o.add_item (Item.other tag)).get_total = o.get_total := by
  constructor
  · simp [Order.add_item, Order.get_num_items]
  · simp [Order.add_item, Order.get_total, List.foldl_append]

/-- C4: remove_item fails with OutOfRange exactly when the integer index is
negative or at least the current length (so it always fails on an empty
order); on success the item at the index is removed: get_num_items drops by
one, items before the index keep their positions and every later item shifts
down by one position. -/
theorem C4_remove_item_spec (o : Order) (i : Int) :
    (o.remove_item i = .error .outOfRange ↔ i < 0 ∨ (o.get_num_items : Int) ≤ i)
    ∧ (0 ≤ i → i < (o.get_num_items : Int) →
        o.remove_item i = .ok ⟨o._items.eraseIdx i.toNat⟩
        ∧ (Order.mk (o._items.eraseIdx i.toNat)).get_num_items + 1 = o.get_num_items
        ∧ (∀ j : Nat, j < i.toNat →
            (o._items.eraseIdx i.toNat).get? j = o._items.get? j)
        ∧ ∀ j : Nat, i.toNat ≤ j →
            (o._items.eraseIdx i.toNat).get? j = o._items.get? (j + 1)) := by
  constructor
  · by_cases hcond : i < 0 ∨ ((o._items.length : Int) ≤ i)
    · simp [Order.remove_item, hcond, Order.get_num_items]
    · simp only [Order.remove_item, Order.get_num_items, if_neg hcond]
      constructor
      · intro h
        exact Except.noConfusion h
      · intro h
        exact absurd h hcond
  · intro h1 h2
    have h2' : i < (o._items.length : Int) := h2
    have hcond : ¬(i < 0 ∨ ((o._items.length : Int) ≤ i)) := by
      push_neg
      exact ⟨h1, h2'⟩
    have hlt : i.toNat < o._items.length := by omega
    refine ⟨by simp [Order.remove_item, hcond], ?_, ?_, ?_⟩
    · exact length_eraseIdx_add_one o._items i.toNat hlt
    · intro j hj
      exact eraseIdx_get?_of_lt o._items i.toNat j hj
    · intro j hj
      exact eraseIdx_get?_of_ge o._items i.toNat j hj

/-- C4 witness: removing index 0 from a two-item order keeps the second
item. -/
theorem C4_remove_item_spec_witness :
    (Order.mk [Item.other 0, Item.other 1]).remove_item 0 = .ok (Order.mk [Item.other 1]) := by
  have h := (C4_remove_item_spec (Order.mk [Item.other 0, Item.other 1]) 0).2
    (by decide) (by decide)
  exact h.1

/-- C5: Food construction fails with InvalidArgument exactly for names outside
the fixed price table (e.g. "InvalidItem"); for a name in the table it
succeeds with the table value as base price and no toppings; and no
add_topping call ever changes the stored item or base price, so the base
price is fixed for the lifetime of the instance. -/
theorem C5_food_init_spec (name t : String) (f f' : Food) :
    (name ∉ Food._valid_food_items.map Prod.fst → Food.init name = .error .invalidArgument)
    ∧ (∀ p : Int, alookup name Food._valid_food_items = some p →
        Food.init name = .ok ⟨name, p, []⟩)
    ∧ (∀ e ∈ Food._valid_food_items, Food.init e.1 = .ok ⟨e.1, e.2, []⟩)
    ∧ (f.add_topping t = .ok f' →
        f'._food_item = f._food_item ∧ f'._base_price = f._base_price)
    ∧ Food.init "InvalidItem" = .error .invalidArgument := by
  refine ⟨fun h => ?_, fun p hp => ?_, by decide, fun h => ?_, by decide⟩
  · rw [← alookup_eq_none_iff] at h
    simp [Food.init, h]
  · simp [Food.init, hp]
  · unfold Food.add_topping at h
    cases hl : alookup t Food._valid_toppings with
    | none => rw [hl] at h; simp at h
    | some p =>
      rw [hl] at h
      simp at h
      subst h
      exact ⟨rfl, rfl⟩

/-- C5 witness: constructing a hotdog stores the table price 2.30 (as a
binary64 value) and no toppings. -/
theorem C5_food_init_spec_witness :
    Food.init "Hotdog" = .ok ⟨"Hotdog", dblOfDec 230 100, []⟩ :=
  (C5_food_init_spec "Hotdog" "Chili" ⟨"Hotdog", dblOfDec 230 100, []⟩
    ⟨"Hotdog", dblOfDec 230 100, []⟩).2.1 (dblOfDec 230 100) (by decide)

/-- C8: re-adding a topping that is already stored is not an error and is
idempotent — it overwrites the stored price with the same table value, so the
food is unchanged; a successful add_topping is absorbing (running it again
returns the same food).  This contrasts with Drink.add_flavor, where
re-adding a present flavor fails with DuplicateEntry. -/
theorem C8_add_topping_idempotent (f f' : Food) (t : String) (p : Int)
    (d : Drink) (fl : String) :
    (alookup t Food._valid_toppings = some p → alookup t f._toppings = some p →
      f.add_topping t = .ok f)
    ∧ (f.add_topping t = .ok f' → f'.add_topping t = .ok f')
    ∧ (fl ∈ Drink._valid_flavors → fl ∈ d._flavors →
        d.add_flavor fl = .error .duplicateEntry) := by
  refine ⟨fun h1 h2 => ?_, fun h => ?_, fun h1 h2 => ?_⟩
  · simp [Food.add_topping, h1, astore_eq_self_of_alookup h2]
  · unfold Food.add_topping at h
    cases hl : alookup t Food._valid_toppings with
    | none => rw [hl] at h; simp at h
    | some p' =>
      rw [hl] at h
      simp at h
      subst h
      simp [Food.add_topping, hl,
        astore_eq_self_of_alookup (alookup_astore t p' f._toppings)]
  · simp [Drink.add_flavor, h1, h2]

/-- C8 witness: re-adding "Chili" to a hotdog that already has it returns the
identical food, while re-adding "lemon" to a drink that has it errors. -/
theorem C8_add_topping_idempotent_witness :
    (Food.mk "Hotdog" (dblOfDec 230 100) [("Chili", dblOfDec 60 100)]).add_topping "Chili"
      = .ok (Food.mk "Hotdog" (dblOfDec 230 100) [("Chili", dblOfDec 60 100)])
    ∧ (Drink.mk none ["lemon"]).add_flavor "lemon" = .error .duplicateEntry := by
  have h := C8_add_topping_idempotent
    (Food.mk "Hotdog" (dblOfDec 230 100) [("Chili", dblOfDec 60 100)])
    (Food.mk "Hotdog" (dblOfDec 230 100) [("Chili", dblOfDec 60 100)])
    "Chili" (dblOfDec 60 100) (Drink.mk none ["lemon"]) "lemon"
  exact ⟨h.1 (by decide) (by decide), h.2.2 (by decide) (by decide)⟩

/-- C9: the data-model invariants hold initially and are preserved by every
mutating operation: a drink's base stays unset or in the fixed base set and
its flavors stay a duplicate-free subset of the fixed flavor set; a food's
item is always a recognized menu entry and every topping key a recognized
topping. -/
theorem C9_invariants_preserved (d d' : Drink) (b fl : String) (f f' : Food)
    (name t : String) :
    Drink.init.inv
    ∧ (d.inv → d.add_base b = .ok d' → d'.inv)
    ∧ (d.inv → d.add_flavor fl = .ok d' → d'.inv)
    ∧ (Food.init name = .ok f' → f'.inv)
    ∧ (f.inv → f.add_topping t = .ok f' → f'.inv) := by
  refine ⟨⟨fun b hb => ?_, ?_, fun x hx => ?_⟩, fun hd h => ?_, fun hd h => ?_,
    fun h => ?_, fun hf h => ?_⟩
  · exact Option.noConfusion hb
  · exact List.nodup_nil
  · exact absurd hx (List.not_mem_nil x)
  · unfold Drink.add_base at h
    split_ifs at h with hmem
    · simp at h
      subst h
      obtain ⟨_, h2, h3⟩ := hd
      refine ⟨fun b' hb' => ?_, h2, h3⟩
      obtain rfl : b = b' := Option.some_injective _ hb'
      exact hmem
  · unfold Drink.add_flavor at h
    split_ifs at h with hval hdup
    · simp at h
      subst h
      obtain ⟨h1, h2, h3⟩ := hd
      refine ⟨h1, ?_, fun x hx => ?_⟩
      · rw [List.nodup_append]
        refine ⟨h2, List.nodup_singleton fl, fun x hx hx' => ?_⟩
        rw [List.mem_singleton] at hx'
        subst hx'
        exact hdup hx
      · rw [List.mem_append, List.mem_singleton] at hx
        rcases hx with hx | rfl
        · exact h3 x hx
        · exact hval
  · unfold Food.init at h
    cases hl : alookup name Food._valid_food_items with
    | none => rw [hl] at h; exact Except.noConfusion h
    | some p =>
      rw [hl] at h
      simp at h
      subst h
      refine ⟨mem_keys_of_alookup_eq_some hl, fun x hx => ?_⟩
      exact absurd hx (by simp)
  · unfold Food.add_topping at h
    cases hl : alookup t Food._valid_toppings with
    | none => rw [hl] at h; exact Except.noConfusion h
    | some p =>
      rw [hl] at h
      simp at h
      subst h
      refine ⟨hf.1, fun x hx => ?_⟩
      rcases mem_keys_astore hx with rfl | hx'
      · exact mem_keys_of_alookup_eq_some hl
      · exact hf.2 x hx'

/-- C9 witness: a freshly constructed hotdog satisfies the Food invariant. -/
theorem C9_invariants_preserved_witness :
    (Food.mk "Hotdog" (dblOfDec 230 100) []).inv :=
  (C9_invariants_preserved Drink.init Drink.init "water" "lemon"
    ⟨"Hotdog", dblOfDec 230 100, []⟩ ⟨"Hotdog", dblOfDec 230 100, []⟩
    "Hotdog" "Chili").2.2.2.1 (by decide)

/-- C1: refutation by evaluation — get_price is computed with binary floating
point, not exact decimal arithmetic.  Food("Hotdog") prices to the binary64
value 2589569785738035/2^50, which is not 2.30; after add_topping("Chili")
the price is 6530219459687219/2^51, not 2.90; and after Nacho Cheese + Chili
the drift is visible even to Python's own float comparison: the computed
price differs from the binary64 value of the literal 3.2 (the exact decimal
sum 2.30 + 0.30 + 0.60). -/
theorem C1_get_price_is_binary_float :
    hotdogPlain.map (fun f => toQ f.get_price) = .ok (2589569785738035 / 2 ^ 50)
    ∧ (2589569785738035 / 2 ^ 50 : ℚ) ≠ 23 / 10
    ∧ hotdogChili.map (fun f => toQ f.get_price) = .ok (6530219459687219 / 2 ^ 51)
    ∧ (6530219459687219 / 2 ^ 51 : ℚ) ≠ 29 / 10
    ∧ hotdogNachoChili.map (fun f => toQ f.get_price) = .ok (7205759403792793 / 2 ^ 51)
    ∧ (7205759403792793 / 2 ^ 51 : ℚ) ≠ 16 / 5
    ∧ hotdogNachoChili.map Food.get_price ≠ .ok (dblOfDec 32 10) := by
  have h0 : hotdogPlain = .ok ⟨"Hotdog", (2651719460595747840 : Int), []⟩ := by decide
  have h1 : hotdogChili
      = .ok ⟨"Hotdog", (2651719460595747840 : Int), [("Chili", (691752902764108160 : Int))]⟩ := by
    decide
  have h2 : hotdogNachoChili
      = .ok ⟨"Hotdog", (2651719460595747840 : Int),
          [("Nacho Cheese", (345876451382054080 : Int)),
           ("Chili", (691752902764108160 : Int))]⟩ := by decide
  have hp0 : (Food.mk "Hotdog" 2651719460595747840 []).get_price
      = 2651719460595747840 := by decide
  have hp1 : (Food.mk "Hotdog" 2651719460595747840
      [("Chili", 691752902764108160)]).get_price = 3343472363359856128 := by decide
  have hp2 : (Food.mk "Hotdog" 2651719460595747840
      [("Nacho Cheese", 345876451382054080),
       ("Chili", 691752902764108160)]).get_price = 3689348814741910016 := by decide
  refine ⟨?_, by norm_num, ?_, by norm_num, ?_, by norm_num, by decide⟩
  · rw [h0]
    simp only [Except.map, hp0, toQ, Except.ok.injEq]
    norm_num
  · rw [h1]
    simp only [Except.map, hp1, toQ, Except.ok.injEq]
    norm_num
  · rw [h2]
    simp only [Except.map, hp2, toQ, Except.ok.injEq]
    norm_num

/-- C2: refutation by evaluation — get_total float-accumulates.  The empty
order does total 0; but the demo order (water drink plus hotdog with chili)
totals the binary64 value 4447304632028365/2^49, which is not 7.90; and the
order holding a water drink and a hotdog with nacho cheese and chili totals
2308094809027379/2^48, which differs from 5.00 plus the food's own
get_price() value, so the total is not the sum of the per-item prices. -/
theorem C2_get_total_is_binary_float :
    toQ Order.init.get_total = 0
    ∧ demoOrder.map (fun o => toQ o.get_total) = .ok (4447304632028365 / 2 ^ 49)
    ∧ (4447304632028365 / 2 ^ 49 : ℚ) ≠ 79 / 10
    ∧ hotdogNachoChili.map (fun f => toQ f.get_price) = .ok (7205759403792793 / 2 ^ 51)
    ∧ bigOrder.map (fun o => toQ o.get_total) = .ok (2308094809027379 / 2 ^ 48)
    ∧ (2308094809027379 / 2 ^ 48 : ℚ) ≠ 5 + 7205759403792793 / 2 ^ 51 := by
  have hdo : demoOrder
      = .ok ⟨[.drink ⟨some "water", []⟩,
              .food ⟨"Hotdog", (2651719460595747840 : Int),
                [("Chili", (691752902764108160 : Int))]⟩]⟩ := by decide
  have hbo : bigOrder
      = .ok ⟨[.drink ⟨some "water", []⟩,
              .food ⟨"Hotdog", (2651719460595747840 : Int),
                [("Nacho Cheese", (345876451382054080 : Int)),
                 ("Chili", (691752902764108160 : Int))]⟩]⟩ := by decide
  have h2 : hotdogNachoChili
      = .ok ⟨"Hotdog", (2651719460595747840 : Int),
          [("Nacho Cheese", (345876451382054080 : Int)),
           ("Chili", (691752902764108160 : Int))]⟩ := by decide
  have hp2 : (Food.mk "Hotdog" 2651719460595747840
      [("Nacho Cheese", 345876451382054080),
       ("Chili", 691752902764108160)]).get_price = 3689348814741910016 := by decide
  have ht0 : Order.init.get_total = 0 := by decide
  have ht1 : (Order.mk [.drink ⟨some "water", []⟩,
      .food ⟨"Hotdog", 2651719460595747840,
        [("Chili", 691752902764108160)]⟩]).get_total = 9108079886394091520 := by decide
  have ht2 : (Order.mk [.drink ⟨some "water", []⟩,
      .food ⟨"Hotdog", 2651719460595747840,
        [("Nacho Cheese", 345876451382054080),
         ("Chili", 691752902764108160)]⟩]).get_total = 9453956337776144384 := by decide
  refine ⟨?_, ?_, by norm_num, ?_, ?_, by norm_num⟩
  · rw [ht0]
    simp [toQ]
  · rw [hdo]
    simp only [Except.map, ht1, toQ, Except.ok.injEq]
    norm_num
  · rw [h2]
    simp only [Except.map, hp2, toQ, Except.ok.injEq]
    norm_num
  · rw [hbo]
    simp only [Except.map, ht2, toQ, Except.ok.injEq]
    norm_num
